import Mathlib

/-!
Verification development for the RaytracingEngine repository.

The definitions below are a shallow embedding of the C++ sources
`Math.h`, `Shape.h`, `Light.h` and `Scene.h` of the repository.
C++ `double` arithmetic is modelled by exact real arithmetic (`ℝ`);
`std::sqrt` by `Real.sqrt`, `std::pow` with literal exponents by monoid
powers and `std::pow(x, shininess)` by `Real.rpow`; `std::optional` by
`Option`; a thrown exception by `Except`.  The thread-local random draws
used for anti-aliasing jitter are modelled by an explicit jitter source
passed as a function argument.  Out-of-range vector reads inside
`Model` (undefined behaviour in C++) are modelled via `List.getD` with
a default.
-/

namespace RTE

noncomputable section

/-- epsilon used by the intersection routines (`1e-6` in the sources). -/
def epsIntersect : ℝ := 1 / 1000000

/-- epsilon used by `Vec3::normalize` (`1e-12` in the sources). -/
def epsNormalize : ℝ := 1 / 1000000000000

/-- transmittance cutoff used by `Scene::computeTransmittance` (`1e-4`). -/
def transmittanceCutoff : ℝ := 1 / 10000

/-- `std::clamp(v, lo, hi)`. -/
def clampR (v lo hi : ℝ) : ℝ := if v < lo then lo else if hi < v then hi else v

/-- `Vec3` from `Math.h`. -/
structure Vec3 where
  x : ℝ
  y : ℝ
  z : ℝ

namespace Vec3

def add (a b : Vec3) : Vec3 := ⟨a.x + b.x, a.y + b.y, a.z + b.z⟩

def sub (a b : Vec3) : Vec3 := ⟨a.x - b.x, a.y - b.y, a.z - b.z⟩

def neg (a : Vec3) : Vec3 := ⟨-a.x, -a.y, -a.z⟩

/-- `operator*(double)`: scaling. -/
def smul (a : Vec3) (s : ℝ) : Vec3 := ⟨a.x * s, a.y * s, a.z * s⟩

/-- `operator*(Vec3)`: component-wise product. -/
def hmul (a b : Vec3) : Vec3 := ⟨a.x * b.x, a.y * b.y, a.z * b.z⟩

/-- `operator/(double)`. -/
def sdiv (a : Vec3) (s : ℝ) : Vec3 := ⟨a.x / s, a.y / s, a.z / s⟩

def dot (a b : Vec3) : ℝ := a.x * b.x + a.y * b.y + a.z * b.z

def cross (a b : Vec3) : Vec3 :=
  ⟨a.y * b.z - a.z * b.y, a.z * b.x - a.x * b.z, a.x * b.y - a.y * b.x⟩

noncomputable def length (a : Vec3) : ℝ := Real.sqrt (a.dot a)

/-- `Vec3::normalize`: zero vector when the length is below `1e-12`. -/
noncomputable def normalize (a : Vec3) : Vec3 :=
  if a.length ≤ epsNormalize then ⟨0, 0, 0⟩ else a.sdiv a.length

/-- `Vec3::reflect`: `(*this) - normal * 2.0 * this->dot(normal)`. -/
def reflect (v normal : Vec3) : Vec3 := v.sub (normal.smul (2 * v.dot normal))

/-- `Vec3::refract` (Snell's law, Math.h lines 44-53). -/
noncomputable def refract (v normal : Vec3) (eta : ℝ) : Vec3 :=
  let I := v.normalize
  let N := normal.normalize
  let cosi := clampR (I.dot N) (-1) 1
  let k := 1 - eta * eta * (1 - cosi * cosi)
  if k < 0 then ⟨0, 0, 0⟩
  else (I.smul eta).sub (N.smul (eta * cosi + Real.sqrt k))

/-- `Vec3::unsafeIndex`: components for indices 0,1,2, `std::out_of_range`
otherwise (modelled by `Except.error`). -/
def unsafeIndex (v : Vec3) (i : ℤ) : Except String ℝ :=
  if i = 0 then Except.ok v.x
  else if i = 1 then Except.ok v.y
  else if i = 2 then Except.ok v.z
  else Except.error "Vec3 index out of range"

end Vec3

/-- `Rayon` from `Math.h`. -/
structure Rayon where
  origin : Vec3
  direction : Vec3

def Rayon.pointAtDistance (r : Rayon) (t : ℝ) : Vec3 :=
  r.origin.add (r.direction.smul t)

/-- `Transform` from `Shape.h` (rotation and scale are stored, never used). -/
structure Transform where
  position : Vec3
  rotation : Vec3
  scale : Vec3

/-- `Material` from `Shape.h`. -/
structure Material where
  color : Vec3
  shininess : ℝ := 128
  specular : ℝ := 0
  transparency : ℝ := 0
  refractiveIndex : ℝ := 1

/-- `HitType` from `Shape.h`. -/
inductive HitType : Type where
  | NONE
  | SPHERE
  | PLANE
  | TRIANGLE

/-- `HitInfo` from `Shape.h`. -/
structure HitInfo where
  type : HitType
  distance : ℝ
  index : ℕ
  material : Material
  normal : Vec3
  hitPoint : Vec3

/-- `HitInfo::isCloserThan`: strict comparison of distances. -/
def HitInfo.isCloserThan (a b : HitInfo) : Prop := a.distance < b.distance

/-- `Sphere` from `Shape.h`. -/
structure Sphere where
  radius : ℝ
  transform : Transform
  material : Material

/-- `Sphere::Intersect` (Shape.h lines 72-98). -/
noncomputable def Sphere.Intersect (sp : Sphere) (ray : Rayon) : Option ℝ :=
  let oc := ray.origin.sub sp.transform.position
  let a := ray.direction.dot ray.direction
  let b := 2 * oc.dot ray.direction
  let c := oc.dot oc - sp.radius * sp.radius
  let discriminant := b * b - 4 * a * c
  if discriminant < 0 then none
  else
    let sqrtDisc := Real.sqrt discriminant
    let t0 := (-b - sqrtDisc) / (2 * a)
    let t1 := (-b + sqrtDisc) / (2 * a)
    let tlo := if t0 > t1 then t1 else t0
    let thi := if t0 > t1 then t0 else t1
    if tlo < epsIntersect then
      if thi < epsIntersect then none else some thi
    else some tlo

noncomputable def Sphere.GetNormalAt (sp : Sphere) (point : Vec3) : Vec3 :=
  (point.sub sp.transform.position).normalize

noncomputable def Sphere.GetHitInfoAt (sp : Sphere) (ray : Rayon) (index : ℕ) :
    Option HitInfo :=
  match sp.Intersect ray with
  | none => none
  | some t =>
    some { type := HitType.SPHERE, distance := t, index := index,
           material := sp.material,
           normal := sp.GetNormalAt (ray.pointAtDistance t),
           hitPoint := ray.pointAtDistance t }

/-- `Plane` from `Shape.h`; the constructor normalizes the normal. -/
structure Plane where
  normal : Vec3
  transform : Transform
  material : Material

/-- The `Plane` constructor: stores `norm.normalize()`. -/
noncomputable def mkPlane (pos norm : Vec3) (material : Material) : Plane :=
  { normal := norm.normalize,
    transform := ⟨pos, ⟨0, 0, 0⟩, ⟨1, 1, 1⟩⟩,
    material := material }

/-- `Plane::Intersect` (Shape.h lines 149-159): note `t >= 0.0` is accepted. -/
noncomputable def Plane.Intersect (pl : Plane) (ray : Rayon) : Option ℝ :=
  let denom := pl.normal.dot ray.direction
  if |denom| > epsIntersect then
    let p0l0 := pl.transform.position.sub ray.origin
    let t := p0l0.dot pl.normal / denom
    if t ≥ 0 then some t else none
  else none

noncomputable def Plane.GetHitInfoAt (pl : Plane) (ray : Rayon) (index : ℕ) :
    Option HitInfo :=
  match pl.Intersect ray with
  | none => none
  | some t =>
    some { type := HitType.PLANE, distance := t, index := index,
           material := pl.material, normal := pl.normal,
           hitPoint := ray.pointAtDistance t }

/-- `Triangle` from `Shape.h`. -/
structure Triangle where
  v0 : Vec3
  v1 : Vec3
  v2 : Vec3
  transform : Transform
  material : Material

/-- `Triangle::Intersect`: Möller–Trumbore (Shape.h lines 202-220). -/
noncomputable def Triangle.Intersect (tr : Triangle) (ray : Rayon) : Option ℝ :=
  let a0 := tr.v0.add tr.transform.position
  let edge1 := (tr.v1.add tr.transform.position).sub a0
  let edge2 := (tr.v2.add tr.transform.position).sub a0
  let h := ray.direction.cross edge2
  let a := edge1.dot h
  if -epsIntersect < a ∧ a < epsIntersect then none
  else
    let f := 1 / a
    let s := ray.origin.sub a0
    let u := f * s.dot h
    if u < 0 ∨ u > 1 then none
    else
      let q := s.cross edge1
      let v := f * ray.direction.dot q
      if v < 0 ∨ u + v > 1 then none
      else
        let t := f * edge2.dot q
        if t > epsIntersect then some t else none

noncomputable def Triangle.GetNormalAt (tr : Triangle) : Vec3 :=
  ((tr.v1.sub tr.v0).cross (tr.v2.sub tr.v0)).normalize

noncomputable def Triangle.GetHitInfoAt (tr : Triangle) (ray : Rayon)
    (index : ℕ) : Option HitInfo :=
  match tr.Intersect ray with
  | none => none
  | some t =>
    some { type := HitType.TRIANGLE, distance := t, index := index,
           material := tr.material, normal := tr.GetNormalAt,
           hitPoint := ray.pointAtDistance t }

/-- One step of the `closest`-update pattern used by every linear scan
(`if (!closest || hit.isCloserThan(*closest)) closest = hit`). -/
def closerStep (closest : Option HitInfo) (h : Option HitInfo) :
    Option HitInfo :=
  match h with
  | none => closest
  | some hit =>
    match closest with
    | none => some hit
    | some c => if hit.distance < c.distance then some hit else closest

/-- `closerStep` restricted to actual hits (`none` candidates dropped). -/
def closerStep' (c : Option HitInfo) (hit : HitInfo) : Option HitInfo :=
  match c with
  | none => some hit
  | some cc => some (if hit.distance < cc.distance then hit else cc)

/-- The binary closest-of-two reduction underlying the scans. -/
def pick (b hit : HitInfo) : HitInfo :=
  if hit.distance < b.distance then hit else b

/-- The running closest hit starting from `c` over a list of hits. -/
def bestFrom (c : HitInfo) (l : List HitInfo) : HitInfo := l.foldl pick c

/-- `Model` from `Shape.h`: triangle indices into a vertex table. -/
structure Model where
  vertices : List ℕ
  vertexPositions : List Vec3
  transform : Transform
  material : Material

/-- The index triples read by the `i += 3` loops of `Model`; a read past
the end of `vertices` (undefined behaviour in C++) is modelled as index 0. -/
def chunk3 : List ℕ → List (ℕ × ℕ × ℕ)
  | [] => []
  | [a] => [(a, 0, 0)]
  | [a, b] => [(a, b, 0)]
  | a :: b :: c :: rest => (a, b, c) :: chunk3 rest

/-- The triangles enumerated by `Model`'s loops. -/
def Model.tris (m : Model) : List Triangle :=
  (chunk3 m.vertices).map fun t =>
    { v0 := m.vertexPositions.getD t.1 ⟨0, 0, 0⟩,
      v1 := m.vertexPositions.getD t.2.1 ⟨0, 0, 0⟩,
      v2 := m.vertexPositions.getD t.2.2 ⟨0, 0, 0⟩,
      transform := m.transform, material := m.material }

/-- `Model::GetHitInfoAt` (Shape.h lines 269-283): closest triangle hit. -/
noncomputable def Model.GetHitInfoAt (m : Model) (ray : Rayon) (index : ℕ) :
    Option HitInfo :=
  (m.tris.map fun tr => tr.GetHitInfoAt ray index).foldl closerStep none

/-- `Model::Intersect` (Shape.h lines 285-300): minimal triangle distance. -/
noncomputable def Model.Intersect (m : Model) (ray : Rayon) : Option ℝ :=
  (m.tris.map fun tr => tr.Intersect ray).foldl
    (fun closestT t =>
      match t with
      | none => closestT
      | some tv =>
        match closestT with
        | none => some tv
        | some c => if tv < c then some tv else closestT)
    none

/-- `Light` from `Light.h`. -/
structure Light where
  position : Vec3
  color : Vec3
  intensity : ℝ

/-- `Camera` from `Math.h`.  `antiAliasingAmount` defaults to 32. -/
structure Camera where
  position : Vec3
  forward : Vec3 := ⟨0, 0, 1⟩
  width : ℕ
  height : ℕ
  focal : ℝ
  farPlaneDistance : ℝ := 1000
  nearPlaneDistance : ℝ := 1
  antiAliasingAmount : ℕ := 32

/-- `Camera::getRay` (Math.h lines 100-122).  The two `dist(gen)` draws
are modelled by the pair `j`; they are consulted only when `aa` is true.
(`invAA = 1.0 / static_cast<double>(aa)` with a `bool` argument is `1.0`.) -/
noncomputable def Camera.getRay (cam : Camera) (pixelX pixelY : ℕ) (aa : Bool)
    (j : ℝ × ℝ) : Rayon :=
  let sx := (pixelX : ℝ) - (cam.width : ℝ) / 2
  let sy := (cam.height : ℝ) / 2 - (pixelY : ℝ)
  let jitterX := if aa then j.1 * (1 / 1) else 0
  let jitterY := if aa then j.2 * (1 / 1) else 0
  let sx2 := sx + jitterX
  let sy2 := sy + jitterY
  let screenPoint : Vec3 := ⟨sx2, sy2, cam.position.z + cam.focal⟩
  ⟨cam.position, (screenPoint.sub cam.position).normalize⟩

/-- `Scene` (Scene.h): the surface buckets, the lights and the camera. -/
structure Scene where
  spheres : List Sphere
  planes : List Plane
  triangles : List Triangle
  models : List Model
  lights : List Light
  camera : Camera

/-- `Scene::maxRecursion` (Scene.h line 24). -/
def maxRecursion : ℕ := 10

/-- `Scene::fresnel`: Schlick approximation. -/
def fresnel (cosTheta F0 : ℝ) : ℝ := F0 + (1 - F0) * (1 - cosTheta) ^ 5

/-- `Scene::backgroundColor` (Scene.h lines 30-33): vertical lerp between
white and sky-blue driven by the normalized direction's y component. -/
noncomputable def backgroundColor (ray : Rayon) : Vec3 :=
  let t := 1 / 2 * (ray.direction.normalize.y + 1)
  ((⟨1, 1, 1⟩ : Vec3).smul (1 - t)).add ((⟨1 / 2, 7 / 10, 1⟩ : Vec3).smul t)

/-- The per-bucket candidate hits scanned by `Scene::IntersectClosest`,
in loop order (spheres, planes, triangles, models). -/
def Scene.hitOpts (s : Scene) (ray : Rayon) : List (Option HitInfo) :=
  (s.spheres.enum.map fun p => p.2.GetHitInfoAt ray p.1) ++
  (s.planes.enum.map fun p => p.2.GetHitInfoAt ray p.1) ++
  (s.triangles.enum.map fun p => p.2.GetHitInfoAt ray p.1) ++
  (s.models.enum.map fun p => p.2.GetHitInfoAt ray p.1)

/-- The actual hits among the candidates, in encounter order. -/
def Scene.hitCandidates (s : Scene) (ray : Rayon) : List HitInfo :=
  (s.hitOpts ray).filterMap id

/-- `Scene::IntersectClosest` (Scene.h lines 218-257): the four bucket
loops keep the running closest hit via `closerStep`. -/
def Scene.IntersectClosest (s : Scene) (ray : Rayon) : Option HitInfo :=
  (s.hitOpts ray).foldl closerStep none

/-- The body of the `while` loop of `Scene::computeTransmittance`
(Scene.h lines 42-74), with the `safety` counter as explicit fuel. -/
def Scene.transmittanceMarch (s : Scene) (maxDist bias : ℝ) :
    ℕ → ℝ → ℝ → Rayon → ℝ
  | 0, T, _, _ => T
  | safety + 1, T, traveled, r =>
    if T > transmittanceCutoff ∧ traveled < maxDist then
      match s.IntersectClosest r with
      | none => T
      | some hit =>
        let t := hit.distance
        if t ≤ 0 then
          s.transmittanceMarch maxDist bias safety T (traveled + bias)
            ⟨r.origin.add (r.direction.smul bias), r.direction⟩
        else if t ≤ bias then
          s.transmittanceMarch maxDist bias safety T (traveled + t + bias)
            ⟨(r.pointAtDistance t).add (r.direction.smul bias), r.direction⟩
        else if traveled + t ≥ maxDist then T
        else
          s.transmittanceMarch maxDist bias safety
            (T * clampR hit.material.transparency 0 1) (traveled + t + bias)
            ⟨(r.pointAtDistance t).add (r.direction.smul bias), r.direction⟩
    else T

/-- `Scene::computeTransmittance` (Scene.h lines 35-77): march with a
safety budget of 64 iterations, then clamp to [0,1]. -/
def Scene.computeTransmittance (s : Scene) (ray : Rayon)
    (maxDist bias : ℝ) : ℝ :=
  clampR (s.transmittanceMarch maxDist bias 64 1 0 ray) 0 1

/-- One iteration of the light loop of `Scene::directLightning`
(Scene.h lines 86-124), accumulating the (diffuse, specular) pair. -/
def Scene.dlStep (s : Scene) (hit : HitInfo) (viewDir normal : Vec3)
    (bias : ℝ) (acc : Vec3 × Vec3) (light : Light) : Vec3 × Vec3 :=
  let vecToLight := light.position.sub hit.hitPoint
  let distanceToLight := vecToLight.length
  if distanceToLight ≤ 0 then acc
  else
    let lightToHit := vecToLight.sdiv distanceToLight
    let normalDotLightHit := max 0 (normal.dot lightToHit)
    if normalDotLightHit ≤ 0 then acc
    else if distanceToLight ≤ bias then acc
    else
      let shadowRay : Rayon := ⟨hit.hitPoint.add (normal.smul bias), lightToHit⟩
      let transmittance :=
        s.computeTransmittance shadowRay (distanceToLight - bias) bias
      if transmittance ≤ bias then acc
      else
        let emitted := light.color.smul light.intensity
        let contribution :=
          (emitted.smul (1 / (distanceToLight * distanceToLight))).smul
            normalDotLightHit
        let diffuse := acc.1.add (contribution.smul transmittance)
        let specular :=
          if hit.material.transparency ≤ 0 ∧ hit.material.specular > 0 then
            let halfVector := (lightToHit.add viewDir).normalize
            let NdotH := max 0 (normal.dot halfVector)
            if NdotH > 0 then
              let specFactor := Real.rpow NdotH hit.material.shininess
              acc.2.add
                (((emitted.smul (1 / (distanceToLight * distanceToLight))).smul
                  specFactor).smul transmittance)
            else acc.2
          else acc.2
        (diffuse, specular)

/-- The (diffuseAccumulation, specularAccumlation) pair after the light
loop of `Scene::directLightning`. -/
def Scene.dlLoop (s : Scene) (hit : HitInfo) (viewDir normalIn : Vec3)
    (bias : ℝ) : Vec3 × Vec3 :=
  s.lights.foldl (s.dlStep hit viewDir normalIn.normalize bias)
    (⟨0, 0, 0⟩, ⟨0, 0, 0⟩)

/-- `Scene::directLightning` (Scene.h lines 79-129). -/
def Scene.directLightning (s : Scene) (hit : HitInfo)
    (viewDir normalIn : Vec3) (bias : ℝ) : Vec3 :=
  let p := s.dlLoop hit viewDir normalIn bias
  (hit.material.color.hmul p.1).add (p.2.smul hit.material.specular)

/-- `Scene::TraceRay` (Scene.h lines 131-198).  The recursion depth
increases by one on each reflection/refraction branch and the function
is terminal at `maxRecursion`, so the recursion is well founded on
`maxRecursion - recursionAmount`.  (The `visualizeNormals` block is
dead code under its `constexpr false` flag and is omitted.) -/
def Scene.TraceRay (s : Scene) (traceRay : Rayon) (recursionAmount : ℕ)
    (bias : ℝ) : Option Vec3 :=
  if hrec : recursionAmount ≥ maxRecursion then some (backgroundColor traceRay)
  else
    match s.IntersectClosest traceRay with
    | none => some (backgroundColor traceRay)
    | some hit =>
      let material := hit.material
      let incoming := traceRay.direction.normalize
      let frontFace := hit.normal.dot incoming < 0
      let normal := if frontFace then hit.normal else hit.normal.neg
      let viewDir := incoming.neg
      let cosTheta := max 0 (normal.dot viewDir)
      let etaI : ℝ := 1
      let etaT := material.refractiveIndex
      let f0 := ((etaT - etaI) / (etaT + etaI)) ^ 2
      let fresnelAmount := fresnel cosTheta f0
      let transparency := clampR material.transparency 0 1
      let localLight := s.directLightning hit viewDir normal bias
      let light1 : Vec3 :=
        if transparency < 1 then
          (⟨0, 0, 0⟩ : Vec3).add (localLight.smul (1 - transparency))
        else ⟨0, 0, 0⟩
      let eta := if frontFace then etaI / etaT else etaT / etaI
      let refractDir := incoming.refract normal eta
      let refractPair : Vec3 × ℝ :=
        if transparency > 0 then
          if refractDir.length > bias then
            let rdn := refractDir.normalize
            let refractRay : Rayon :=
              ⟨hit.hitPoint.add (rdn.smul (bias * 100)), rdn⟩
            match s.TraceRay refractRay (recursionAmount + 1) bias with
            | some tc =>
              (tc.smul (transparency * (1 - fresnelAmount)), fresnelAmount)
            | none => (⟨0, 0, 0⟩, fresnelAmount)
          else (⟨0, 0, 0⟩, 1)
        else (⟨0, 0, 0⟩, fresnelAmount)
      let light2 := light1.add refractPair.1
      let reflectiveness :=
        if transparency > 0 then refractPair.2 else material.specular
      let light3 :=
        if reflectiveness > bias then
          let reflectDir := (incoming.reflect normal).normalize
          let reflectRay : Rayon :=
            ⟨hit.hitPoint.add (reflectDir.smul bias), reflectDir⟩
          match s.TraceRay reflectRay (recursionAmount + 1) bias with
          | some rc => light2.add (rc.smul reflectiveness)
          | none => light2
        else light2
      some light3
termination_by maxRecursion - recursionAmount
decreasing_by
  all_goals exact Nat.sub_lt_sub_left (Nat.lt_of_not_ge hrec) (Nat.lt_succ_self _)

/-- `Scene::GenerateAntiAliasing` (Scene.h lines 306-309). -/
def Scene.GenerateAntiAliasing (s : Scene) (x y : ℕ) (isActive : Bool)
    (bias : ℝ) (j : ℝ × ℝ) : Option Vec3 :=
  s.TraceRay (s.camera.getRay x y isActive j) 0 bias

/-- The sample loop of `Scene::GeneratePixelAt` (Scene.h lines 289-296):
accumulated color and count of accepted samples.  `js` supplies the two
random jitter draws of sample `aa`. -/
def Scene.gpaLoop (s : Scene) (x y : ℕ) (js : ℕ → ℝ × ℝ) : Vec3 × ℕ :=
  (List.range s.camera.antiAliasingAmount).foldl
    (fun acc aa =>
      match s.GenerateAntiAliasing x y
          (decide (0 < aa ∧ 1 < s.camera.antiAliasingAmount)) (1 / 1000)
          (js aa) with
      | some c => (acc.1.add c, acc.2 + 1)
      | none => acc)
    (⟨0, 0, 0⟩, 0)

/-- `Scene::GeneratePixelAt` (Scene.h lines 283-304). -/
def Scene.GeneratePixelAt (s : Scene) (x y : ℕ) (js : ℕ → ℝ × ℝ) : Vec3 :=
  let p := s.gpaLoop x y js
  if p.2 > 0 then p.1.sdiv (p.2 : ℝ) else ⟨0, 0, 0⟩

/-- `Scene::RenderImage` (Scene.h lines 311-328): row-major pixel list.
`js idx aa` supplies the jitter draws of sample `aa` of pixel `idx`. -/
def Scene.RenderImage (s : Scene) (js : ℕ → ℕ → ℝ × ℝ) : List Vec3 :=
  (List.range (s.camera.width * s.camera.height)).map fun idx =>
    s.GeneratePixelAt (idx % s.camera.width) (idx / s.camera.width) (js idx)

/-- Left-to-right sum of a color list (the `+=` accumulation order). -/
def vecSum (l : List Vec3) : Vec3 := l.foldl Vec3.add ⟨0, 0, 0⟩

/-- `a` of the sphere quadratic: `ray.direction.dot(ray.direction)`. -/
def sphereQuadA (ray : Rayon) : ℝ := ray.direction.dot ray.direction

/-- `b` of the sphere quadratic: `2.0 * oc.dot(ray.direction)`. -/
def sphereQuadB (sp : Sphere) (ray : Rayon) : ℝ :=
  2 * (ray.origin.sub sp.transform.position).dot ray.direction

/-- `c` of the sphere quadratic: `oc.dot(oc) - radius * radius`. -/
def sphereQuadC (sp : Sphere) (ray : Rayon) : ℝ :=
  (ray.origin.sub sp.transform.position).dot
    (ray.origin.sub sp.transform.position) - sp.radius * sp.radius

/-- The sphere discriminant `b*b - 4.0*a*c`. -/
def sphereDisc (sp : Sphere) (ray : Rayon) : ℝ :=
  sphereQuadB sp ray * sphereQuadB sp ray -
    4 * sphereQuadA ray * sphereQuadC sp ray

/-- The smaller quadratic root `(-b - sqrt(disc)) / (2a)`. -/
def sphereTmin (sp : Sphere) (ray : Rayon) : ℝ :=
  (-sphereQuadB sp ray - Real.sqrt (sphereDisc sp ray)) / (2 * sphereQuadA ray)

/-- The larger quadratic root `(-b + sqrt(disc)) / (2a)`. -/
def sphereTmax (sp : Sphere) (ray : Rayon) : ℝ :=
  (-sphereQuadB sp ray + Real.sqrt (sphereDisc sp ray)) / (2 * sphereQuadA ray)

/-- The Möller–Trumbore determinant `a = edge1.dot(h)` of a triangle. -/
def triangleDet (tr : Triangle) (ray : Rayon) : ℝ :=
  ((tr.v1.add tr.transform.position).sub (tr.v0.add tr.transform.position)).dot
    (ray.direction.cross
      ((tr.v2.add tr.transform.position).sub (tr.v0.add tr.transform.position)))

/-- A default white material (all other fields at their defaults). -/
def matDefault : Material := { color := ⟨1, 1, 1⟩ }

/-- A 1×1 camera with a single anti-aliasing sample. -/
def camOne : Camera :=
  { position := ⟨0, 0, 0⟩, width := 1, height := 1, focal := 1,
    antiAliasingAmount := 1 }

/-- A 1×1 camera with two anti-aliasing samples. -/
def camTwo : Camera :=
  { position := ⟨0, 0, 0⟩, width := 1, height := 1, focal := 1,
    antiAliasingAmount := 2 }

/-- A scene with no surfaces and no lights. -/
def sceneEmpty : Scene := ⟨[], [], [], [], [], camOne⟩

/-- The empty scene under the two-sample camera. -/
def sceneAA2 : Scene := ⟨[], [], [], [], [], camTwo⟩

/-- A ray along +z from the origin. -/
def rayZ : Rayon := ⟨⟨0, 0, 0⟩, ⟨0, 0, 1⟩⟩

/-- A ray along +y from the origin. -/
def rayUp : Rayon := ⟨⟨0, 0, 0⟩, ⟨0, 1, 0⟩⟩

/-- The plane through the origin with normal +y, built by the constructor. -/
def planeOrigin : Plane := mkPlane ⟨0, 0, 0⟩ ⟨0, 1, 0⟩ matDefault

/-- A scene holding only `planeOrigin`. -/
def scenePlane : Scene := ⟨[], [planeOrigin], [], [], [], camOne⟩

/-- A unit sphere centered at (0,0,3). -/
def sphereFar : Sphere :=
  { radius := 1, transform := ⟨⟨0, 0, 3⟩, ⟨0, 0, 0⟩, ⟨1, 1, 1⟩⟩,
    material := matDefault }

/-- A unit sphere centered at the origin. -/
def sphereUnit : Sphere :=
  { radius := 1, transform := ⟨⟨0, 0, 0⟩, ⟨0, 0, 0⟩, ⟨1, 1, 1⟩⟩,
    material := matDefault }

/-- A ray starting just outside `sphereUnit` (by 5e-7) aimed at its center. -/
def rayGraze : Rayon := ⟨⟨0, 0, -(1 + 1 / 2000000)⟩, ⟨0, 0, 1⟩⟩

/-- A hit record whose material is half transparent. -/
def hitTransparent : HitInfo :=
  { type := HitType.SPHERE, distance := 1, index := 0,
    material := { color := ⟨1, 1, 1⟩, transparency := 1 / 2 },
    normal := ⟨0, 1, 0⟩, hitPoint := ⟨0, 0, 0⟩ }

/-- A jitter source producing only zeros. -/
def jsZero : ℕ → ℝ × ℝ := fun _ => (0, 0)

/-- A per-pixel jitter source producing only zeros. -/
def jjZero : ℕ → ℕ → ℝ × ℝ := fun _ _ => (0, 0)

/-- A per-pixel jitter source producing nonzero draws. -/
def jjHalf : ℕ → ℕ → ℝ × ℝ := fun _ _ => (1 / 2, 1 / 3)

/-- The plane z = 10 facing -z, built by the constructor. -/
def planeFar : Plane := mkPlane ⟨0, 0, 10⟩ ⟨0, 0, 1⟩ matDefault

/-- A scene holding only `planeFar`: its single occluder sits at
distance 10 along `rayZ`. -/
def scenePlaneFar : Scene := ⟨[], [planeFar], [], [], [], camOne⟩

end

lemma normalize_unitY : Vec3.normalize ⟨0, 1, 0⟩ = ⟨0, 1, 0⟩ := by
  simp only [Vec3.normalize, Vec3.length, Vec3.dot, Vec3.sdiv]
  norm_num [epsNormalize]

lemma normalize_zero : Vec3.normalize ⟨0, 0, 0⟩ = ⟨0, 0, 0⟩ := by
  simp only [Vec3.normalize, Vec3.length, Vec3.dot]
  norm_num [epsNormalize]

lemma normalize_unitZ : Vec3.normalize ⟨0, 0, 1⟩ = ⟨0, 0, 1⟩ := by
  simp only [Vec3.normalize, Vec3.length, Vec3.dot, Vec3.sdiv]
  norm_num [epsNormalize]

/-- C8: reflecting a direction about a unit normal twice returns the
direction: `reflect(reflect(d, n), n) = d` whenever `n · n = 1`. -/
theorem reflect_reflect_of_unit (d n : Vec3) (h : n.dot n = 1) :
    (d.reflect n).reflect n = d := by
  obtain ⟨p, q, r⟩ := d
  obtain ⟨a, b, c⟩ := n
  simp only [Vec3.dot] at h
  simp only [Vec3.reflect, Vec3.sub, Vec3.smul, Vec3.dot, Vec3.mk.injEq]
  refine ⟨?_, ?_, ?_⟩
  · linear_combination (4 * (p * a + q * b + r * c) * a) * h
  · linear_combination (4 * (p * a + q * b + r * c) * b) * h
  · linear_combination (4 * (p * a + q * b + r * c) * c) * h

/-- Witness for C8 at d = (1,2,3), n = (0,1,0). -/
theorem reflect_reflect_of_unit_witness :
    Vec3.reflect (Vec3.reflect ⟨1, 2, 3⟩ ⟨0, 1, 0⟩) ⟨0, 1, 0⟩ = ⟨1, 2, 3⟩ :=
  reflect_reflect_of_unit ⟨1, 2, 3⟩ ⟨0, 1, 0⟩ (by norm_num [Vec3.dot])

/-- C6 (amended): `refract` returns the zero vector when the Snell
discriminant `k = 1 - eta²(1 - cosi²)` is negative (total internal
reflection), and otherwise returns the Snell direction
`I·eta - N·(eta·cosi + sqrt k)` computed from the normalized incident
vector and normal; for degenerate (zero) inputs that direction itself
can be the zero vector even though `k ≥ 0`. -/
theorem refract_snell (v n : Vec3) (eta : ℝ) :
    (1 - eta * eta *
        (1 - clampR (v.normalize.dot n.normalize) (-1) 1 *
          clampR (v.normalize.dot n.normalize) (-1) 1) < 0 →
      v.refract n eta = ⟨0, 0, 0⟩) ∧
    (0 ≤ 1 - eta * eta *
        (1 - clampR (v.normalize.dot n.normalize) (-1) 1 *
          clampR (v.normalize.dot n.normalize) (-1) 1) →
      v.refract n eta =
        (v.normalize.smul eta).sub
          (n.normalize.smul
            (eta * clampR (v.normalize.dot n.normalize) (-1) 1 +
              Real.sqrt (1 - eta * eta *
                (1 - clampR (v.normalize.dot n.normalize) (-1) 1 *
                  clampR (v.normalize.dot n.normalize) (-1) 1))))) := by
  constructor
  · intro h
    simp only [Vec3.refract]
    rw [if_pos h]
  · intro h
    simp only [Vec3.refract]
    rw [if_neg (not_lt.mpr h)]

/-- Witness for C6: total internal reflection at I = (3/5,4/5,0),
N = (0,1,0), eta = 2 yields the zero vector. -/
theorem refract_snell_witness :
    Vec3.refract ⟨3, 4, 0⟩ ⟨0, 1, 0⟩ 2 = ⟨0, 0, 0⟩ := by
  have h5 : Vec3.normalize ⟨3, 4, 0⟩ = ⟨3 / 5, 4 / 5, 0⟩ := by
    have hs : Real.sqrt 25 = 5 := by
      rw [show (25 : ℝ) = 5 ^ 2 by norm_num]
      exact Real.sqrt_sq (by norm_num)
    simp only [Vec3.normalize, Vec3.length, Vec3.dot, Vec3.sdiv]
    norm_num [hs, epsNormalize]
  refine (refract_snell ⟨3, 4, 0⟩ ⟨0, 1, 0⟩ 2).1 ?_
  rw [h5, normalize_unitY]
  norm_num [Vec3.dot, clampR]

/-- Counterexample to C6 as stated: at incident (0,0,0), normal (0,1,0),
eta = 1, `refract` returns the zero vector although the discriminant is
not negative, so the zero return is not equivalent to total internal
reflection. -/
theorem refract_snell_cex :
    Vec3.refract ⟨0, 0, 0⟩ ⟨0, 1, 0⟩ 1 = ⟨0, 0, 0⟩ ∧
    ¬(1 - (1 : ℝ) * 1 *
        (1 - clampR ((Vec3.normalize ⟨0, 0, 0⟩).dot (Vec3.normalize ⟨0, 1, 0⟩)) (-1) 1 *
          clampR ((Vec3.normalize ⟨0, 0, 0⟩).dot (Vec3.normalize ⟨0, 1, 0⟩)) (-1) 1) < 0) := by
  constructor
  · simp only [Vec3.refract, normalize_zero, normalize_unitY]
    norm_num [Vec3.dot, clampR, Vec3.smul, Vec3.sub]
  · rw [normalize_zero, normalize_unitY]
    norm_num [Vec3.dot, clampR]

/-- C9: `unsafeIndex` yields the x, y, z components at indices 0, 1, 2
and raises `std::out_of_range` exactly for every other index, while the
geometric no-answer conditions (parallel plane, negative sphere
discriminant, degenerate triangle determinant, zero-length normalize)
propagate as empty optionals or a zero vector, never as raised errors. -/
theorem error_taxonomy :
    (∀ v : Vec3, v.unsafeIndex 0 = Except.ok v.x ∧
      v.unsafeIndex 1 = Except.ok v.y ∧ v.unsafeIndex 2 = Except.ok v.z) ∧
    (∀ (v : Vec3) (i : ℤ), i ≠ 0 → i ≠ 1 → i ≠ 2 →
      v.unsafeIndex i = Except.error "Vec3 index out of range") ∧
    (∀ (v : Vec3) (i : ℤ),
      (∃ e, v.unsafeIndex i = Except.error e) ↔ ¬(i = 0 ∨ i = 1 ∨ i = 2)) ∧
    (∀ (pl : Plane) (ray : Rayon), |pl.normal.dot ray.direction| ≤ epsIntersect →
      pl.Intersect ray = none) ∧
    (∀ (sp : Sphere) (ray : Rayon), sphereDisc sp ray < 0 →
      sp.Intersect ray = none) ∧
    (∀ (tr : Triangle) (ray : Rayon),
      -epsIntersect < triangleDet tr ray ∧ triangleDet tr ray < epsIntersect →
      tr.Intersect ray = none) ∧
    (∀ v : Vec3, v.length ≤ epsNormalize → v.normalize = ⟨0, 0, 0⟩) := by
  refine ⟨?_, ?_, ?_, ?_, ?_, ?_, ?_⟩
  · intro v
    refine ⟨?_, ?_, ?_⟩ <;> simp [Vec3.unsafeIndex]
  · intro v i h0 h1 h2
    simp [Vec3.unsafeIndex, h0, h1, h2]
  · intro v i
    by_cases h0 : i = 0
    · simp [Vec3.unsafeIndex, h0]
    · by_cases h1 : i = 1
      · simp [Vec3.unsafeIndex, h0, h1]
      · by_cases h2 : i = 2
        · simp [Vec3.unsafeIndex, h0, h1, h2]
        · simp [Vec3.unsafeIndex, h0, h1, h2]
  · intro pl ray h
    simp only [Plane.Intersect]
    rw [if_neg (not_lt.mpr h)]
  · intro sp ray h
    simp only [sphereDisc, sphereQuadA, sphereQuadB, sphereQuadC] at h
    simp only [Sphere.Intersect]
    rw [if_pos h]
  · intro tr ray h
    simp only [triangleDet] at h
    simp only [Triangle.Intersect]
    rw [if_pos h]
  · intro v h
    simp only [Vec3.normalize]
    rw [if_pos h]

/-- Witness for C9: a concrete out-of-range index raises, a concrete
parallel ray/plane pair yields no intersection, and the zero vector
normalizes to the zero vector. -/
theorem error_taxonomy_witness :
    Vec3.unsafeIndex ⟨1, 2, 3⟩ 5 = Except.error "Vec3 index out of range" ∧
    planeOrigin.Intersect rayZ = none ∧
    Vec3.normalize ⟨0, 0, 0⟩ = ⟨0, 0, 0⟩ := by
  refine ⟨error_taxonomy.2.1 ⟨1, 2, 3⟩ 5 (by decide) (by decide) (by decide),
    error_taxonomy.2.2.2.1 planeOrigin rayZ ?_,
    error_taxonomy.2.2.2.2.2.2 ⟨0, 0, 0⟩ ?_⟩
  · simp only [planeOrigin, mkPlane, normalize_unitY, rayZ]
    norm_num [Vec3.dot, epsIntersect]
  · simp only [Vec3.length, Vec3.dot]
    norm_num [epsNormalize]

lemma clampR_bounds (v lo hi : ℝ) (h : lo ≤ hi) :
    lo ≤ clampR v lo hi ∧ clampR v lo hi ≤ hi := by
  unfold clampR
  split_ifs with h1 h2
  · exact ⟨le_refl lo, h⟩
  · exact ⟨h, le_refl hi⟩
  · exact ⟨not_lt.mp h1, not_lt.mp h2⟩

lemma transmittanceMarch_no_hit (s : Scene) (ray : Rayon) (maxDist bias : ℝ)
    (h : s.IntersectClosest ray = none) :
    ∀ (fuel : ℕ) (T traveled : ℝ),
      s.transmittanceMarch maxDist bias fuel T traveled ray = T := by
  intro fuel
  cases fuel with
  | zero => intro T traveled; rfl
  | succ k =>
    intro T traveled
    simp only [Scene.transmittanceMarch]
    split_ifs with hc
    · rw [h]
    · rfl

lemma transmittanceMarch_exit (s : Scene) (maxDist bias : ℝ) (fuel : ℕ)
    (T traveled : ℝ) (r : Rayon) (h : ¬traveled < maxDist) :
    s.transmittanceMarch maxDist bias fuel T traveled r = T := by
  cases fuel with
  | zero => rfl
  | succ k =>
    simp only [Scene.transmittanceMarch]
    exact if_neg fun hc => h hc.2

lemma transmittanceMarch_succ_some (s : Scene) (maxDist bias : ℝ) (k : ℕ)
    (T traveled : ℝ) (r : Rayon) (hi : HitInfo)
    (hI : s.IntersectClosest r = some hi)
    (hc : T > transmittanceCutoff ∧ traveled < maxDist) :
    s.transmittanceMarch maxDist bias (k + 1) T traveled r =
      (if hi.distance ≤ 0 then
        s.transmittanceMarch maxDist bias k T (traveled + bias)
          ⟨r.origin.add (r.direction.smul bias), r.direction⟩
      else if hi.distance ≤ bias then
        s.transmittanceMarch maxDist bias k T (traveled + hi.distance + bias)
          ⟨(r.pointAtDistance hi.distance).add (r.direction.smul bias),
            r.direction⟩
      else if traveled + hi.distance ≥ maxDist then T
      else
        s.transmittanceMarch maxDist bias k
          (T * clampR hi.material.transparency 0 1)
          (traveled + hi.distance + bias)
          ⟨(r.pointAtDistance hi.distance).add (r.direction.smul bias),
            r.direction⟩) := by
  simp only [Scene.transmittanceMarch]
  rw [if_pos hc, hI]

lemma transmittanceMarch_no_hit_before (s : Scene) (ray : Rayon)
    (maxDist bias : ℝ)
    (h : ∀ hi, s.IntersectClosest ray = some hi → maxDist ≤ hi.distance)
    (fuel : ℕ) :
    s.transmittanceMarch maxDist bias fuel 1 0 ray = 1 := by
  cases fuel with
  | zero => rfl
  | succ k =>
    by_cases hc : (1 : ℝ) > transmittanceCutoff ∧ (0 : ℝ) < maxDist
    · cases hI : s.IntersectClosest ray with
      | none => exact transmittanceMarch_no_hit s ray maxDist bias hI (k + 1) 1 0
      | some hi =>
        rw [transmittanceMarch_succ_some s maxDist bias k 1 0 ray hi hI hc]
        have ht := h hi hI
        have hmd : (0 : ℝ) < maxDist := hc.2
        have ht0 : ¬hi.distance ≤ 0 := by linarith
        rw [if_neg ht0]
        by_cases htb : hi.distance ≤ bias
        · rw [if_pos htb]
          exact transmittanceMarch_exit s maxDist bias k 1
            (0 + hi.distance + bias) _ (not_lt.mpr (by linarith))
        · rw [if_neg htb, if_pos (by linarith : 0 + hi.distance ≥ maxDist)]
    · simp only [Scene.transmittanceMarch]
      rw [if_neg hc]

/-- C2: `computeTransmittance` terminates (it is a total function of a
64-iteration fuelled march), its value always lies in [0,1], and when
no occluder is hit before `maxDist` — every hit the scene reports for
the ray, if any, lies at distance at least `maxDist` — the value is
exactly 1. -/
theorem computeTransmittance_spec (s : Scene) (ray : Rayon)
    (maxDist bias : ℝ) :
    0 ≤ s.computeTransmittance ray maxDist bias ∧
    s.computeTransmittance ray maxDist bias ≤ 1 ∧
    ((∀ hi, s.IntersectClosest ray = some hi → maxDist ≤ hi.distance) →
      s.computeTransmittance ray maxDist bias = 1) := by
  unfold Scene.computeTransmittance
  obtain ⟨hl, hr⟩ :=
    clampR_bounds (s.transmittanceMarch maxDist bias 64 1 0 ray) 0 1
      (by norm_num)
  refine ⟨hl, hr, ?_⟩
  intro h
  rw [transmittanceMarch_no_hit_before s ray maxDist bias h 64]
  norm_num [clampR]

/-- Witness for C2: a single occluder at distance 10 along the ray does
not attenuate a shadow ray whose range ends at distance 5. -/
theorem computeTransmittance_spec_witness :
    scenePlaneFar.computeTransmittance rayZ 5 (1 / 1000) = 1 := by
  have hpl : planeFar.Intersect rayZ = some 10 := by
    simp only [planeFar, mkPlane, normalize_unitZ, Plane.Intersect, rayZ,
      Vec3.dot, Vec3.sub]
    norm_num [epsIntersect]
  have hd : Option.map HitInfo.distance (scenePlaneFar.IntersectClosest rayZ) =
      some 10 := by
    simp [Scene.IntersectClosest, Scene.hitOpts, scenePlaneFar,
      Plane.GetHitInfoAt, hpl, closerStep]
  refine (computeTransmittance_spec scenePlaneFar rayZ 5 (1 / 1000)).2.2 ?_
  intro hi hx
  rw [hx] at hd
  simp at hd
  norm_num [hd]

lemma foldl_closerStep_filterMap (opts : List (Option HitInfo))
    (acc : Option HitInfo) :
    opts.foldl closerStep acc = (opts.filterMap id).foldl closerStep' acc := by
  induction opts generalizing acc with
  | nil => rfl
  | cons o t ih =>
    cases o with
    | none =>
      have h1 : closerStep acc none = acc := rfl
      have h2 : List.filterMap id (none :: t) = List.filterMap id t := by simp
      rw [List.foldl_cons, h1, h2]
      exact ih acc
    | some h =>
      have h1 : closerStep acc (some h) = closerStep' acc h := by
        cases acc with
        | none => rfl
        | some c =>
          show (if h.distance < c.distance then some h else some c) =
            some (if h.distance < c.distance then h else c)
          split_ifs <;> rfl
      have h2 : List.filterMap id (some h :: t) = h :: List.filterMap id t := by
        simp
      rw [List.foldl_cons, h1, h2, List.foldl_cons]
      exact ih _

lemma foldl_closerStep'_some (l : List HitInfo) (c : HitInfo) :
    l.foldl closerStep' (some c) = some (bestFrom c l) := by
  induction l generalizing c with
  | nil => rfl
  | cons a t ih =>
    rw [List.foldl_cons]
    have h : closerStep' (some c) a = some (pick c a) := rfl
    rw [h, ih (pick c a)]
    rfl

lemma bestFrom_mem (c : HitInfo) (l : List HitInfo) :
    bestFrom c l = c ∨ bestFrom c l ∈ l := by
  induction l generalizing c with
  | nil => exact Or.inl rfl
  | cons a t ih =>
    have hstep : bestFrom c (a :: t) = bestFrom (pick c a) t := rfl
    rcases ih (pick c a) with h | h
    · rw [hstep, h]
      unfold pick
      split_ifs
      · exact Or.inr (List.mem_cons_self a t)
      · exact Or.inl rfl
    · rw [hstep]
      exact Or.inr (List.mem_cons_of_mem a h)

lemma bestFrom_le (c : HitInfo) (l : List HitInfo) :
    (bestFrom c l).distance ≤ c.distance ∧
    ∀ d ∈ l, (bestFrom c l).distance ≤ d.distance := by
  induction l generalizing c with
  | nil => exact ⟨le_refl _, by simp⟩
  | cons a t ih =>
    obtain ⟨h1, h2⟩ := ih (pick c a)
    have hpc : (pick c a).distance ≤ c.distance := by
      unfold pick
      split_ifs with hlt
      · exact le_of_lt hlt
      · exact le_refl _
    have hpa : (pick c a).distance ≤ a.distance := by
      unfold pick
      split_ifs with hlt
      · exact le_refl _
      · exact not_lt.mp hlt
    have hstep : bestFrom c (a :: t) = bestFrom (pick c a) t := rfl
    rw [hstep]
    refine ⟨le_trans h1 hpc, ?_⟩
    intro d hd
    rcases List.mem_cons.mp hd with rfl | hd
    · exact le_trans h1 hpa
    · exact h2 d hd

lemma bestFrom_of_min (c : HitInfo) (l : List HitInfo)
    (h : ∀ d ∈ l, c.distance ≤ d.distance) : bestFrom c l = c := by
  induction l generalizing c with
  | nil => rfl
  | cons a t ih =>
    have hca : ¬a.distance < c.distance :=
      not_lt.mpr (h a (List.mem_cons_self a t))
    have hp : pick c a = c := by
      unfold pick
      rw [if_neg hca]
    have hstep : bestFrom c (a :: t) = bestFrom (pick c a) t := rfl
    rw [hstep, hp]
    exact ih c fun d hd => h d (List.mem_cons_of_mem a hd)

lemma foldl_closerStep_none_iff (opts : List (Option HitInfo)) :
    opts.foldl closerStep none = none ↔ opts.filterMap id = [] := by
  rw [foldl_closerStep_filterMap]
  cases hl : opts.filterMap id with
  | nil => simp
  | cons a t =>
    simp only [List.foldl_cons]
    have h : closerStep' none a = some a := rfl
    rw [h, foldl_closerStep'_some]
    simp

lemma foldl_closerStep_none_some (opts : List (Option HitInfo)) (h : HitInfo)
    (hx : opts.foldl closerStep none = some h) :
    h ∈ opts.filterMap id ∧ ∀ c ∈ opts.filterMap id, h.distance ≤ c.distance := by
  rw [foldl_closerStep_filterMap] at hx
  cases hl : opts.filterMap id with
  | nil =>
    rw [hl] at hx
    simp at hx
  | cons a t =>
    rw [hl, List.foldl_cons] at hx
    have ha : closerStep' none a = some a := rfl
    rw [ha, foldl_closerStep'_some] at hx
    injection hx with hx'
    constructor
    · rcases bestFrom_mem a t with h1 | h1
      · rw [← hx', h1]
        exact List.mem_cons_self a t
      · rw [← hx']
        exact List.mem_cons_of_mem a h1
    · intro c hc
      obtain ⟨hle, hall⟩ := bestFrom_le a t
      rcases List.mem_cons.mp hc with rfl | hc
      · rw [← hx']
        exact hle
      · rw [← hx']
        exact hall c hc

lemma foldl_closerStep_first_min (opts : List (Option HitInfo))
    (l₁ : List HitInfo) (h : HitInfo) (l₂ : List HitInfo)
    (hsplit : opts.filterMap id = l₁ ++ h :: l₂)
    (h1 : ∀ c ∈ l₁, h.distance < c.distance)
    (h2 : ∀ c ∈ l₂, h.distance ≤ c.distance) :
    opts.foldl closerStep none = some h := by
  rw [foldl_closerStep_filterMap, hsplit]
  cases l₁ with
  | nil =>
    simp only [List.nil_append, List.foldl_cons]
    have hh : closerStep' none h = some h := rfl
    rw [hh, foldl_closerStep'_some, bestFrom_of_min h l₂ h2]
  | cons a t =>
    simp only [List.cons_append, List.foldl_cons]
    have ha : closerStep' none a = some a := rfl
    rw [ha, foldl_closerStep'_some]
    have happ : bestFrom a (t ++ h :: l₂) = bestFrom (bestFrom a t) (h :: l₂) := by
      unfold bestFrom
      rw [List.foldl_append]
    rw [happ]
    have hble : h.distance < (bestFrom a t).distance := by
      rcases bestFrom_mem a t with hm | hm
      · rw [hm]
        exact h1 a (List.mem_cons_self a t)
      · exact h1 (bestFrom a t) (List.mem_cons_of_mem a hm)
    have hpick : pick (bestFrom a t) h = h := by
      unfold pick
      rw [if_pos hble]
    have hstep : bestFrom (bestFrom a t) (h :: l₂) = bestFrom (pick (bestFrom a t) h) l₂ := rfl
    rw [hstep, hpick, bestFrom_of_min h l₂ h2]

lemma sphereIntersect_dist (sp : Sphere) (ray : Rayon) (t : ℝ)
    (h : sp.Intersect ray = some t) : epsIntersect ≤ t := by
  simp only [Sphere.Intersect] at h
  split_ifs at h <;>
    first
      | (simp at h; done)
      | (injection h with h'
         rw [← h']
         first
           | assumption
           | exact not_lt.mp (by assumption))

lemma planeIntersect_dist (pl : Plane) (ray : Rayon) (t : ℝ)
    (h : pl.Intersect ray = some t) : 0 ≤ t := by
  simp only [Plane.Intersect] at h
  split_ifs at h <;>
    first
      | (simp at h; done)
      | (injection h with h'
         rw [← h']
         assumption)

lemma triangleIntersect_dist (tr : Triangle) (ray : Rayon) (t : ℝ)
    (h : tr.Intersect ray = some t) : epsIntersect < t := by
  simp only [Triangle.Intersect] at h
  split_ifs at h <;>
    first
      | (simp at h; done)
      | (injection h with h'
         rw [← h']
         assumption)

lemma mem_filterMap_id {l : List (Option HitInfo)} {h : HitInfo}
    (hm : h ∈ l.filterMap id) : some h ∈ l := by
  obtain ⟨o, ho, hid⟩ := List.mem_filterMap.mp hm
  cases o with
  | none => simp at hid
  | some x =>
    have hx : x = h := by simpa using hid
    rw [← hx]
    exact ho

lemma sphereHitInfo_dist (sp : Sphere) (ray : Rayon) (i : ℕ) (h : HitInfo)
    (hh : sp.GetHitInfoAt ray i = some h) : epsIntersect ≤ h.distance := by
  unfold Sphere.GetHitInfoAt at hh
  cases hI : sp.Intersect ray with
  | none => rw [hI] at hh; simp at hh
  | some t =>
    rw [hI] at hh
    injection hh with hh'
    rw [← hh']
    exact sphereIntersect_dist sp ray t hI

lemma planeHitInfo_dist (pl : Plane) (ray : Rayon) (i : ℕ) (h : HitInfo)
    (hh : pl.GetHitInfoAt ray i = some h) : 0 ≤ h.distance := by
  unfold Plane.GetHitInfoAt at hh
  cases hI : pl.Intersect ray with
  | none => rw [hI] at hh; simp at hh
  | some t =>
    rw [hI] at hh
    injection hh with hh'
    rw [← hh']
    exact planeIntersect_dist pl ray t hI

lemma triangleHitInfo_dist (tr : Triangle) (ray : Rayon) (i : ℕ) (h : HitInfo)
    (hh : tr.GetHitInfoAt ray i = some h) : epsIntersect < h.distance := by
  unfold Triangle.GetHitInfoAt at hh
  cases hI : tr.Intersect ray with
  | none => rw [hI] at hh; simp at hh
  | some t =>
    rw [hI] at hh
    injection hh with hh'
    rw [← hh']
    exact triangleIntersect_dist tr ray t hI

lemma modelHitInfo_dist (m : Model) (ray : Rayon) (i : ℕ) (h : HitInfo)
    (hh : m.GetHitInfoAt ray i = some h) : epsIntersect < h.distance := by
  unfold Model.GetHitInfoAt at hh
  obtain ⟨hm, _⟩ := foldl_closerStep_none_some _ h hh
  obtain ⟨tr, _, htr⟩ := List.mem_map.mp (mem_filterMap_id hm)
  exact triangleHitInfo_dist tr ray i h htr

lemma hitCandidates_nonneg (s : Scene) (ray : Rayon) :
    ∀ h ∈ s.hitCandidates ray, 0 ≤ h.distance := by
  intro h hmem
  have heps : (0 : ℝ) ≤ epsIntersect := by norm_num [epsIntersect]
  unfold Scene.hitCandidates Scene.hitOpts at hmem
  simp only [List.filterMap_append, List.mem_append] at hmem
  rcases hmem with ((hs | hp) | ht) | hm
  · obtain ⟨p, _, hpo⟩ := List.mem_map.mp (mem_filterMap_id hs)
    exact le_trans heps (sphereHitInfo_dist p.2 ray p.1 h hpo)
  · obtain ⟨p, _, hpo⟩ := List.mem_map.mp (mem_filterMap_id hp)
    exact planeHitInfo_dist p.2 ray p.1 h hpo
  · obtain ⟨p, _, hpo⟩ := List.mem_map.mp (mem_filterMap_id ht)
    exact le_trans heps (le_of_lt (triangleHitInfo_dist p.2 ray p.1 h hpo))
  · obtain ⟨p, _, hpo⟩ := List.mem_map.mp (mem_filterMap_id hm)
    exact le_trans heps (le_of_lt (modelHitInfo_dist p.2 ray p.1 h hpo))

/-- C3 (amended): `IntersectClosest` returns a hit of minimum distance
among all candidates reported by the sphere, plane, triangle and model
buckets (first-encountered wins exact ties), or none exactly when no
bucket reports a hit; every returned record has nonnegative distance
(spheres and triangles report distances above `epsIntersect`, but a
plane may report distance exactly 0 when a non-parallel ray starts on
the plane). -/
theorem intersectClosest_spec (s : Scene) (ray : Rayon) :
    (s.IntersectClosest ray = none ↔ s.hitCandidates ray = []) ∧
    (∀ h, s.IntersectClosest ray = some h →
      h ∈ s.hitCandidates ray ∧ 0 ≤ h.distance ∧
      ∀ c ∈ s.hitCandidates ray, h.distance ≤ c.distance) ∧
    (∀ (l₁ : List HitInfo) (h : HitInfo) (l₂ : List HitInfo),
      s.hitCandidates ray = l₁ ++ h :: l₂ →
      (∀ c ∈ l₁, h.distance < c.distance) →
      (∀ c ∈ l₂, h.distance ≤ c.distance) →
      s.IntersectClosest ray = some h) := by
  unfold Scene.IntersectClosest
  refine ⟨foldl_closerStep_none_iff _, ?_, ?_⟩
  · intro h hh
    obtain ⟨hm, hmin⟩ := foldl_closerStep_none_some _ h hh
    exact ⟨hm, hitCandidates_nonneg s ray h hm, hmin⟩
  · intro l₁ h l₂ hs h1 h2
    exact foldl_closerStep_first_min _ l₁ h l₂ hs h1 h2

/-- Witness for C3: the empty scene yields no hit. -/
theorem intersectClosest_spec_witness :
    sceneEmpty.IntersectClosest rayZ = none :=
  (intersectClosest_spec sceneEmpty rayZ).1.mpr rfl

/-- Counterexample to C3 as stated: a non-parallel ray whose origin lies
on a plane produces a returned HitRecord of distance exactly 0, so not
every returned record has strictly positive distance. -/
theorem intersectClosest_cex :
    Option.map HitInfo.distance (scenePlane.IntersectClosest rayUp) = some 0 := by
  have hpl : planeOrigin.Intersect rayUp = some 0 := by
    simp only [planeOrigin, mkPlane, normalize_unitY, Plane.Intersect, rayUp,
      Vec3.dot, Vec3.sub]
    norm_num [epsIntersect]
  simp [Scene.IntersectClosest, Scene.hitOpts, scenePlane, Plane.GetHitInfoAt,
    hpl, closerStep]

lemma dot_sdiv_sdiv (v : Vec3) (s : ℝ) :
    (v.sdiv s).dot (v.sdiv s) = v.dot v / (s * s) := by
  simp only [Vec3.sdiv, Vec3.dot]
  ring

lemma sub_dot_sdiv_rev (a b : Vec3) (s : ℝ) :
    (a.sub b).dot ((b.sub a).sdiv s) = -((b.sub a).dot (b.sub a)) / s := by
  simp only [Vec3.sub, Vec3.sdiv, Vec3.dot]
  ring

lemma sub_dot_self_rev (a b : Vec3) :
    (a.sub b).dot (a.sub b) = (b.sub a).dot (b.sub a) := by
  simp only [Vec3.sub, Vec3.dot]
  ring

lemma dot_self_nonneg (v : Vec3) : 0 ≤ v.dot v := by
  simp only [Vec3.dot]
  exact add_nonneg (add_nonneg (mul_self_nonneg _) (mul_self_nonneg _))
    (mul_self_nonneg _)

/-- C4 (amended): with a nondegenerate direction, `Sphere::Intersect`
returns none when the discriminant is negative, the smaller root when it
is at least `epsIntersect`, the larger root when the smaller one is
below `epsIntersect` but the larger is not, and none when both roots are
below `epsIntersect`; consequently a ray aimed at the center from a
distance whose gap to the surface is at least `epsIntersect` returns
exactly `centerDistance - radius` (a ray outside by less than
`epsIntersect` falls back to the larger root instead). -/
theorem sphereIntersect_spec (sp : Sphere) (ray : Rayon)
    (ha : 0 < sphereQuadA ray) :
    (sphereDisc sp ray < 0 → sp.Intersect ray = none) ∧
    (0 ≤ sphereDisc sp ray → epsIntersect ≤ sphereTmin sp ray →
      sp.Intersect ray = some (sphereTmin sp ray)) ∧
    (0 ≤ sphereDisc sp ray → sphereTmin sp ray < epsIntersect →
      epsIntersect ≤ sphereTmax sp ray →
      sp.Intersect ray = some (sphereTmax sp ray)) ∧
    (0 ≤ sphereDisc sp ray → sphereTmax sp ray < epsIntersect →
      sp.Intersect ray = none) ∧
    (∀ dist : ℝ, 0 ≤ sp.radius → epsIntersect ≤ dist - sp.radius →
      dist = (sp.transform.position.sub ray.origin).length →
      ray.direction = (sp.transform.position.sub ray.origin).sdiv dist →
      sp.Intersect ray = some (dist - sp.radius)) := by
  have hs : 0 ≤ Real.sqrt (sphereDisc sp ray) := Real.sqrt_nonneg _
  have h2a : 0 < 2 * sphereQuadA ray := by linarith
  have hle : sphereTmin sp ray ≤ sphereTmax sp ray := by
    unfold sphereTmin sphereTmax
    exact (div_le_div_right h2a).mpr (by linarith)
  have hI : sp.Intersect ray =
      (if sphereDisc sp ray < 0 then none
       else if sphereTmin sp ray < epsIntersect then
         (if sphereTmax sp ray < epsIntersect then none
          else some (sphereTmax sp ray))
       else some (sphereTmin sp ray)) := by
    simp only [sphereTmin, sphereTmax, sphereDisc, sphereQuadA, sphereQuadB,
      sphereQuadC] at hle ⊢
    simp only [Sphere.Intersect]
    simp only [if_neg (not_lt.mpr hle)]
  have heps : (0 : ℝ) < epsIntersect := by norm_num [epsIntersect]
  refine ⟨?_, ?_, ?_, ?_, ?_⟩
  · intro h
    rw [hI, if_pos h]
  · intro h0 h1
    rw [hI, if_neg (not_lt.mpr h0), if_neg (not_lt.mpr h1)]
  · intro h0 h1 h2
    rw [hI, if_neg (not_lt.mpr h0), if_pos h1, if_neg (not_lt.mpr h2)]
  · intro h0 h1
    rw [hI, if_neg (not_lt.mpr h0), if_pos (lt_of_le_of_lt hle h1), if_pos h1]
  · intro dist hr hout hdist hd
    have hdotnn : 0 ≤ (sp.transform.position.sub ray.origin).dot
        (sp.transform.position.sub ray.origin) := dot_self_nonneg _
    have hL : (sp.transform.position.sub ray.origin).dot
        (sp.transform.position.sub ray.origin) = dist * dist := by
      rw [hdist, Vec3.length]
      exact (Real.mul_self_sqrt hdotnn).symm
    have hdistpos : 0 < dist := by linarith
    have hA : sphereQuadA ray = 1 := by
      rw [sphereQuadA, hd, dot_sdiv_sdiv, hL]
      field_simp
    have hB : sphereQuadB sp ray = -(2 * dist) := by
      rw [sphereQuadB, hd, sub_dot_sdiv_rev, hL]
      field_simp
      ring
    have hC : sphereQuadC sp ray = dist * dist - sp.radius * sp.radius := by
      rw [sphereQuadC, sub_dot_self_rev, hL]
    have hD : sphereDisc sp ray = (2 * sp.radius) ^ 2 := by
      rw [sphereDisc, hA, hB, hC]
      ring
    have hsqrt : Real.sqrt (sphereDisc sp ray) = 2 * sp.radius := by
      rw [hD]
      exact Real.sqrt_sq (by linarith)
    have htmin : sphereTmin sp ray = dist - sp.radius := by
      rw [sphereTmin, hA, hB, hsqrt]
      ring
    have hDnn : 0 ≤ sphereDisc sp ray := by
      rw [hD]
      positivity
    rw [hI, if_neg (not_lt.mpr hDnn), if_neg (not_lt.mpr (htmin ▸ hout)),
      htmin]

/-- Witness for C4: the unit sphere at (0,0,3) seen from the origin
along +z is hit at distance 2. -/
theorem sphereIntersect_spec_witness :
    sphereFar.Intersect rayZ = some 2 := by
  have h3 : ((sphereFar.transform.position).sub rayZ.origin).length = 3 := by
    simp only [sphereFar, rayZ, Vec3.sub, Vec3.length, Vec3.dot]
    norm_num
    rw [show (9 : ℝ) = 3 ^ 2 by norm_num]
    exact Real.sqrt_sq (by norm_num)
  have ha : 0 < sphereQuadA rayZ := by
    simp only [sphereQuadA, rayZ, Vec3.dot]
    norm_num
  have hdir : rayZ.direction = ((sphereFar.transform.position).sub rayZ.origin).sdiv 3 := by
    simp only [sphereFar, rayZ, Vec3.sub, Vec3.sdiv, Vec3.mk.injEq]
    norm_num
  have h := (sphereIntersect_spec sphereFar rayZ ha).2.2.2.2 3
    (by norm_num [sphereFar]) (by norm_num [sphereFar, epsIntersect])
    (by rw [h3]) hdir
  rw [h]
  norm_num [sphereFar]

/-- Counterexample to C4 as stated: a ray starting outside the unit
sphere by 5e-7 (less than epsilon) and aimed at its center returns the
larger root `2 + 5e-7`, not `centerDistance - radius = 5e-7`. -/
theorem sphereIntersect_cex :
    sphereUnit.Intersect rayGraze = some (2 + 1 / 2000000) ∧
    ((rayGraze.origin).sub sphereUnit.transform.position).length =
      1 + 1 / 2000000 ∧
    sphereUnit.radius < 1 + 1 / 2000000 ∧
    (2 + 1 / 2000000 : ℝ) ≠ (1 + 1 / 2000000) - sphereUnit.radius := by
  have h4 : Real.sqrt 4 = 2 := by
    rw [show (4 : ℝ) = 2 ^ 2 by norm_num]
    exact Real.sqrt_sq (by norm_num)
  refine ⟨?_, ?_, ?_, ?_⟩
  · simp only [Sphere.Intersect, sphereUnit, rayGraze, matDefault, Vec3.sub,
      Vec3.dot]
    norm_num [epsIntersect, h4]
  · simp only [rayGraze, sphereUnit, Vec3.sub, Vec3.length, Vec3.dot]
    norm_num
    rw [show (4000004000001 : ℝ) = 2000001 ^ 2 by norm_num,
      show (4000000000000 : ℝ) = 2000000 ^ 2 by norm_num,
      Real.sqrt_sq (by norm_num : (0:ℝ) ≤ 2000001),
      Real.sqrt_sq (by norm_num : (0:ℝ) ≤ 2000000)]
  · norm_num [sphereUnit]
  · norm_num [sphereUnit]

lemma zero_smul_vec (s : ℝ) : (⟨0, 0, 0⟩ : Vec3).smul s = ⟨0, 0, 0⟩ := by
  simp [Vec3.smul]

lemma add_zero_vec (v : Vec3) : v.add ⟨0, 0, 0⟩ = v := by
  cases v
  simp [Vec3.add]

lemma zero_add_vec (v : Vec3) : (⟨0, 0, 0⟩ : Vec3).add v = v := by
  cases v
  simp [Vec3.add]

lemma vec_add_assoc (a b c : Vec3) : (a.add b).add c = a.add (b.add c) := by
  simp only [Vec3.add, Vec3.mk.injEq]
  refine ⟨?_, ?_, ?_⟩ <;> ring

lemma dlStep_snd (s : Scene) (hit : HitInfo) (viewDir nrm : Vec3) (bias : ℝ)
    (h : ¬hit.material.transparency ≤ 0) (acc : Vec3 × Vec3) (light : Light) :
    (s.dlStep hit viewDir nrm bias acc light).2 = acc.2 := by
  simp only [Scene.dlStep]
  split_ifs <;>
    first
      | rfl
      | exact absurd (And.left (by assumption)) h

lemma dlFold_snd (s : Scene) (hit : HitInfo) (viewDir nrm : Vec3) (bias : ℝ)
    (h : ¬hit.material.transparency ≤ 0) :
    ∀ (l : List Light) (acc : Vec3 × Vec3),
      (l.foldl (s.dlStep hit viewDir nrm bias) acc).2 = acc.2 := by
  intro l
  induction l with
  | nil => intro acc; rfl
  | cons a t ih =>
    intro acc
    rw [List.foldl_cons, ih (s.dlStep hit viewDir nrm bias acc a),
      dlStep_snd s hit viewDir nrm bias h acc a]

/-- C10: whenever the hit material has any positive transparency, the
Blinn-Phong specular accumulation of `directLightning` stays the zero
vector and the returned radiance is the diffuse term alone. -/
theorem directLightning_transparent_diffuse (s : Scene) (hit : HitInfo)
    (viewDir normalIn : Vec3) (bias : ℝ)
    (h : 0 < hit.material.transparency) :
    (s.dlLoop hit viewDir normalIn bias).2 = ⟨0, 0, 0⟩ ∧
    s.directLightning hit viewDir normalIn bias =
      hit.material.color.hmul (s.dlLoop hit viewDir normalIn bias).1 := by
  have hsnd : (s.dlLoop hit viewDir normalIn bias).2 = ⟨0, 0, 0⟩ := by
    unfold Scene.dlLoop
    exact dlFold_snd s hit viewDir normalIn.normalize bias (not_le.mpr h)
      s.lights (⟨0, 0, 0⟩, ⟨0, 0, 0⟩)
  refine ⟨hsnd, ?_⟩
  simp only [Scene.directLightning]
  rw [hsnd, zero_smul_vec, add_zero_vec]

/-- Witness for C10 at a half-transparent hit in the empty scene. -/
theorem directLightning_transparent_diffuse_witness :
    (sceneEmpty.dlLoop hitTransparent ⟨0, 1, 0⟩ ⟨0, 1, 0⟩ (1 / 1000)).2 =
      ⟨0, 0, 0⟩ :=
  (directLightning_transparent_diffuse sceneEmpty hitTransparent ⟨0, 1, 0⟩
    ⟨0, 1, 0⟩ (1 / 1000) (by norm_num [hitTransparent])).1

lemma traceRay_isSome (s : Scene) (ray : Rayon) (n : ℕ) (bias : ℝ) :
    (s.TraceRay ray n bias).isSome = true := by
  rw [Scene.TraceRay.eq_def]
  split
  · rfl
  · split <;> rfl

/-- C1: `maxRecursion` is the fixed value 10 (within the spec's 5-10
range); `TraceRay` always produces a color (the recursion is bounded by
`maxRecursion`, increasing the depth by one per reflection/refraction
branch, so it terminates), and it returns the background gradient - the
vertical lerp between white and sky-blue with parameter
`t = 0.5*(normalized direction.y + 1)` - whenever the depth has reached
`maxRecursion` or `IntersectClosest` reports no hit. -/
theorem traceRay_terminal (s : Scene) (ray : Rayon) (n : ℕ) (bias : ℝ) :
    maxRecursion = 10 ∧
    (s.TraceRay ray n bias).isSome = true ∧
    (maxRecursion ≤ n → s.TraceRay ray n bias = some
      (((⟨1, 1, 1⟩ : Vec3).smul (1 - 1 / 2 * (ray.direction.normalize.y + 1))).add
        ((⟨1 / 2, 7 / 10, 1⟩ : Vec3).smul (1 / 2 * (ray.direction.normalize.y + 1))))) ∧
    (s.IntersectClosest ray = none → s.TraceRay ray n bias = some
      (((⟨1, 1, 1⟩ : Vec3).smul (1 - 1 / 2 * (ray.direction.normalize.y + 1))).add
        ((⟨1 / 2, 7 / 10, 1⟩ : Vec3).smul (1 / 2 * (ray.direction.normalize.y + 1))))) := by
  have hbg : backgroundColor ray =
      (((⟨1, 1, 1⟩ : Vec3).smul (1 - 1 / 2 * (ray.direction.normalize.y + 1))).add
        ((⟨1 / 2, 7 / 10, 1⟩ : Vec3).smul (1 / 2 * (ray.direction.normalize.y + 1)))) := rfl
  refine ⟨rfl, traceRay_isSome s ray n bias, ?_, ?_⟩
  · intro h
    rw [Scene.TraceRay.eq_def, dif_pos h, hbg]
  · intro h
    by_cases hn : maxRecursion ≤ n
    · rw [Scene.TraceRay.eq_def, dif_pos hn, hbg]
    · rw [Scene.TraceRay.eq_def, dif_neg hn, h, hbg]

/-- Witness for C1: at depth 10 in the empty scene the background
gradient is returned. -/
theorem traceRay_terminal_witness :
    sceneEmpty.TraceRay rayZ 10 (1 / 1000) = some
      (((⟨1, 1, 1⟩ : Vec3).smul (1 - 1 / 2 * (rayZ.direction.normalize.y + 1))).add
        ((⟨1 / 2, 7 / 10, 1⟩ : Vec3).smul (1 / 2 * (rayZ.direction.normalize.y + 1)))) :=
  (traceRay_terminal sceneEmpty rayZ 10 (1 / 1000)).2.2.1
    (by norm_num [maxRecursion])

lemma generateAA_isSome (s : Scene) (x y : ℕ) (b : Bool) (bias : ℝ)
    (j : ℝ × ℝ) : (s.GenerateAntiAliasing x y b bias j).isSome = true := by
  unfold Scene.GenerateAntiAliasing
  exact traceRay_isSome s _ 0 bias

lemma vecSum_cons (z : Vec3) (l : List Vec3) :
    vecSum (z :: l) = z.add (vecSum l) := by
  unfold vecSum
  rw [List.foldl_cons, zero_add_vec]
  induction l generalizing z with
  | nil => exact (add_zero_vec z).symm
  | cons a t ih =>
    rw [List.foldl_cons, List.foldl_cons, zero_add_vec, ih, ih a,
      vec_add_assoc]

lemma gpaLoop_spec (s : Scene) (x y : ℕ) (js : ℕ → ℝ × ℝ) :
    s.gpaLoop x y js =
      (vecSum ((List.range s.camera.antiAliasingAmount).map fun aa =>
        Option.getD (s.GenerateAntiAliasing x y
          (decide (0 < aa ∧ 1 < s.camera.antiAliasingAmount)) (1 / 1000)
          (js aa)) ⟨0, 0, 0⟩),
       s.camera.antiAliasingAmount) := by
  unfold Scene.gpaLoop
  have haux : ∀ (l : List ℕ) (acc : Vec3 × ℕ),
      l.foldl (fun acc aa =>
        match s.GenerateAntiAliasing x y
            (decide (0 < aa ∧ 1 < s.camera.antiAliasingAmount)) (1 / 1000)
            (js aa) with
        | some c => (acc.1.add c, acc.2 + 1)
        | none => acc) acc =
      (acc.1.add (vecSum (l.map fun aa =>
        Option.getD (s.GenerateAntiAliasing x y
          (decide (0 < aa ∧ 1 < s.camera.antiAliasingAmount)) (1 / 1000)
          (js aa)) ⟨0, 0, 0⟩)), acc.2 + l.length) := by
    intro l
    induction l with
    | nil =>
      intro acc
      simp [vecSum, add_zero_vec]
    | cons a t ih =>
      intro acc
      obtain ⟨c, hc⟩ := Option.isSome_iff_exists.mp
        (generateAA_isSome s x y
          (decide (0 < a ∧ 1 < s.camera.antiAliasingAmount)) (1 / 1000) (js a))
      rw [List.foldl_cons]
      simp only [hc, Option.getD_some, List.map_cons, vecSum_cons,
        List.length_cons]
      rw [ih]
      simp only [Prod.mk.injEq]
      exact ⟨by rw [vec_add_assoc], by omega⟩
  rw [haux]
  simp [zero_add_vec, List.length_range]

/-- C5: with `antiAliasingAmount ≥ 1`, the pixel loop accepts exactly
`antiAliasingAmount` traced samples (every sample counts because
`TraceRay` always yields a color, background included), sample `aa` is
traced through `getRay` with the jitter flag `aa > 0 ∧ aaCount > 1`
(first sample unjittered, subsequent ones jittered), the returned color
is the accumulated sum divided by the sample count, and the zero-color
fallback branch is never taken. -/
theorem generatePixelAt_spec (s : Scene) (x y : ℕ) (js : ℕ → ℝ × ℝ)
    (h : 1 ≤ s.camera.antiAliasingAmount) :
    (s.gpaLoop x y js).2 = s.camera.antiAliasingAmount ∧
    (s.gpaLoop x y js).1 =
      vecSum ((List.range s.camera.antiAliasingAmount).map fun aa =>
        Option.getD (s.TraceRay (s.camera.getRay x y
          (decide (0 < aa ∧ 1 < s.camera.antiAliasingAmount)) (js aa))
          0 (1 / 1000)) ⟨0, 0, 0⟩) ∧
    s.GeneratePixelAt x y js =
      (s.gpaLoop x y js).1.sdiv ((s.camera.antiAliasingAmount : ℕ) : ℝ) := by
  have hloop := gpaLoop_spec s x y js
  refine ⟨by rw [hloop], by rw [hloop]; rfl, ?_⟩
  simp only [Scene.GeneratePixelAt, hloop]
  rw [if_pos (by omega : (0 : ℕ) < s.camera.antiAliasingAmount)]

/-- Witness for C5: with two samples over the empty scene, exactly two
samples are accumulated. -/
theorem generatePixelAt_spec_witness :
    (sceneAA2.gpaLoop 0 0 jsZero).2 = 2 := by
  have h := (generatePixelAt_spec sceneAA2 0 0 jsZero
    (by norm_num [sceneAA2, camTwo])).1
  simpa [sceneAA2, camTwo] using h

lemma generatePixelAt_aa1 (s : Scene) (x y : ℕ)
    (h : s.camera.antiAliasingAmount = 1) (js jt : ℕ → ℝ × ℝ) :
    s.GeneratePixelAt x y js = s.GeneratePixelAt x y jt := by
  simp only [Scene.GeneratePixelAt, Scene.gpaLoop, h]
  rfl

/-- C7: rendering is deterministic when anti-aliasing is disabled: with
`antiAliasingAmount = 1` the single sample per pixel is unjittered
(`getRay` consults the random draws only when its jitter flag is true),
so two renders with different random draw streams produce identical
output arrays. -/
theorem renderImage_deterministic (s : Scene) (js1 js2 : ℕ → ℕ → ℝ × ℝ)
    (h : s.camera.antiAliasingAmount = 1) :
    s.RenderImage js1 = s.RenderImage js2 := by
  unfold Scene.RenderImage
  have hfun : (fun idx => s.GeneratePixelAt (idx % s.camera.width)
      (idx / s.camera.width) (js1 idx)) =
      (fun idx => s.GeneratePixelAt (idx % s.camera.width)
        (idx / s.camera.width) (js2 idx)) :=
    funext fun idx => generatePixelAt_aa1 s _ _ h (js1 idx) (js2 idx)
  rw [hfun]

/-- Witness for C7: the empty one-pixel scene renders identically under
two different jitter streams. -/
theorem renderImage_deterministic_witness :
    sceneEmpty.RenderImage jjZero = sceneEmpty.RenderImage jjHalf :=
  renderImage_deterministic sceneEmpty jjZero jjHalf rfl

end RTE
